import Mathlib

/-!
# Verification of the music-reader page cache and command channel

A shallow embedding of `src/cache.rs` of the `music-reader` repository:
the bounded page cache (`PageCache`) with its two-extremes distance
eviction heuristic, and the dual-priority synchronous command channel
(`SyncCacheCommandChannel`).

The `BTreeMap<usize, Rc<Texture>>` is modelled as a strictly-sorted
association list; `Rc` cloning is identity on the modelled values.
External collaborators (the poppler document and the renderer) are
modelled from the spec, as noted on their definitions.
-/

namespace MusicReader

/-- Modelled from the spec: `draw::draw_pages_to_texture` is not under
`src/` (only its caller in `cache.rs` is). The spec treats the renderer
as a pure function `(pages, target_height) -> image` producing "an
immutable bitmap handle produced for a given page number at a given
target height"; we model the bitmap as recording the page index it was
rendered from and the target height, and `Texture::height()` returns
that target height. -/
structure Texture where
  page : Nat
  height : Int
deriving DecidableEq, Repr

/-- A logical page handle returned by the document adapter
(`poppler::Page`), identified by its index. -/
structure PopplerPage where
  index : Nat
deriving DecidableEq, Repr

/-- Modelled from the spec: the poppler `Document` is an external
collaborator, "an opaque, random-access-by-index provider of logical
pages", with `page_at(index) -> optional logical-page handle`;
out-of-range indices yield nothing. We model it by its page count. -/
structure Document where
  numPages : Nat
deriving DecidableEq, Repr

/-- Rust `Document::page(index: i32) -> Option<Page>`: some handle iff
`0 <= index < numPages`. -/
def Document.page (d : Document) (i : Int) : Option PopplerPage :=
  if 0 ≤ i ∧ i < (d.numPages : Int) then some ⟨i.toNat⟩ else none

/-- The `page_number as i32` cast in `cache.rs` (usize to i32, two's
complement truncation). -/
def usizeToI32 (n : Nat) : Int :=
  let r : Nat := n % 2 ^ 32
  if r < 2 ^ 31 then (r : Int) else (r : Int) - 2 ^ 32

/-- Modelled from the spec: `draw_pages_to_texture(&pages, height)`
renders the given pages into one bitmap at the target pixel height.
In `cache.rs` it is always called on a single page. -/
def draw_pages_to_texture (pages : List PopplerPage) (height : Int) : Texture :=
  { page := (pages.headD ⟨0⟩).index, height := height }

/-! ## The `BTreeMap<usize, Rc<Texture>>`, as a sorted association list -/

/-- The cache's page store: `BTreeMap<usize, Rc<Texture>>`, modelled as
an association list that reachable states keep strictly sorted by key. -/
abbrev PagesMap := List (Nat × Texture)

/-- Rust `BTreeMap::get`. -/
def btGet (k : Nat) : PagesMap → Option Texture
  | [] => none
  | (k', v) :: rest => if k = k' then some v else btGet k rest

/-- Rust `BTreeMap::insert`: inserts keeping the list sorted, returning the
new map together with the previous value at the key, if any. -/
def btInsert (k : Nat) (v : Texture) : PagesMap → PagesMap × Option Texture
  | [] => ([(k, v)], none)
  | (k', v') :: rest =>
    if k < k' then ((k, v) :: (k', v') :: rest, none)
    else if k = k' then ((k, v) :: rest, some v')
    else
      let (m, prev) := btInsert k v rest
      ((k', v') :: m, prev)

/-- Rust `BTreeMap::pop_first`: the least entry and the rest, if non-empty. -/
def btPopFirst : PagesMap → Option ((Nat × Texture) × PagesMap)
  | [] => none
  | e :: rest => some (e, rest)

/-- Rust `BTreeMap::pop_last`: the greatest entry and the rest, if non-empty. -/
def btPopLast (m : PagesMap) : Option ((Nat × Texture) × PagesMap) :=
  match m.getLast? with
  | none => none
  | some e => some (e, m.dropLast)

/-- Well-formedness of the map model: keys strictly increasing. -/
def SortedMap (m : PagesMap) : Prop :=
  List.Pairwise (fun a b : Nat × Texture => a.1 < b.1) m

instance (m : PagesMap) : Decidable (SortedMap m) := by
  unfold SortedMap; infer_instance

/-! ## `PageCache` -/

/-- Rust `CacheResponse` (`cache.rs`). -/
inductive CacheResponse where
  | SinglePageRetrieved (page : Texture)
  | TwoPagesRetrieved (page_left page_right : Texture)
  | PageResolutionUpgraded (page_number : Nat) (page : Texture)
deriving DecidableEq, Repr

/-- An invocation of one of the external adapters, recorded so that
"does not invoke the adapter" claims are statable. -/
inductive AdapterCall where
  | documentPage (index : Int)
  | renderPage (page : Nat) (height : Int)
deriving DecidableEq, Repr

/-- Rust `PageCache` (`cache.rs`). -/
structure PageCache where
  document : Document
  max_num_stored_pages : Nat
  pages : PagesMap
  last_requested_page_number : Nat
deriving DecidableEq, Repr

/-- Rust `PageCache::new`. -/
def PageCache.new (document : Document) (max_num_stored_pages : Nat) : PageCache :=
  { document := document
    max_num_stored_pages := max_num_stored_pages
    pages := []
    last_requested_page_number := 0 }

/-- Rust `PageCache::get_page`: records the requested page number as
`last_requested_page_number`, then looks the page up. -/
def PageCache.get_page (c : PageCache) (page_number : Nat) :
    PageCache × Option Texture :=
  ({ c with last_requested_page_number := page_number }, btGet page_number c.pages)

/-- Rust `PageCache::remove_most_distant_page`: pops the least and greatest
entries, re-inserts whichever key is closer to
`last_requested_page_number`, dropping the other. `usize::abs_diff` is
`Nat.dist`. -/
def PageCache.remove_most_distant_page (c : PageCache) :
    PageCache × Except String Unit :=
  match btPopFirst c.pages with
  | none => (c, Except.error "The cache is empty, cannot remove first page")
  | some ((min_n, min_p), rest1) =>
    match btPopLast rest1 with
    | none =>
      ({ c with pages := rest1 },
       Except.error "The cache is empty, cannot remove last page")
    | some ((max_n, max_p), rest2) =>
      if Nat.dist c.last_requested_page_number min_n >
          Nat.dist c.last_requested_page_number max_n then
        ({ c with pages := (btInsert max_n max_p rest2).1 }, Except.ok ())
      else
        ({ c with pages := (btInsert min_n min_p rest2).1 }, Except.ok ())

/-- The body of `cache_page` past its already-cached early return:
asks the document for the page, renders it, inserts it (recording
whether a previous entry was overwritten), and evicts if the store now
exceeds `max_num_stored_pages` and holds more than 2 entries. -/
def PageCache.cachePageBody (c : PageCache) (page_number : Nat) (height : Int) :
    PageCache × Option CacheResponse × List AdapterCall :=
  match c.document.page (usizeToI32 page_number) with
  | none => (c, none, [AdapterCall.documentPage (usizeToI32 page_number)])
  | some pg =>
    let texture := draw_pages_to_texture [pg] height
    let inserted := btInsert page_number texture c.pages
    let response : Option CacheResponse :=
      if inserted.2.isSome then
        some (CacheResponse.PageResolutionUpgraded page_number texture)
      else none
    let c1 : PageCache := { c with pages := inserted.1 }
    let c2 : PageCache :=
      if c1.pages.length > c.max_num_stored_pages ∧ c1.pages.length > 2 then
        c1.remove_most_distant_page.1
      else c1
    (c2, response,
     [AdapterCall.documentPage (usizeToI32 page_number),
      AdapterCall.renderPage pg.index height])

/-- Rust `PageCache::cache_page`: no-op if the page is cached at `>= height`;
otherwise runs `cachePageBody`. A `PageResolutionUpgraded` response is
produced when a previous entry was overwritten. The third component
lists the adapter invocations the call performed. -/
def PageCache.cache_page (c : PageCache) (page_number : Nat) (height : Int) :
    PageCache × Option CacheResponse × List AdapterCall :=
  match btGet page_number c.pages with
  | some page =>
    if height ≤ page.height then (c, none, [])
    else c.cachePageBody page_number height
  | none => c.cachePageBody page_number height

/-- Rust `PageCache::get_page_or_cache`: cache hit, else render at the
fallback height 100 and re-read; error if still absent. -/
def PageCache.get_page_or_cache (c : PageCache) (page_number : Nat) :
    PageCache × Except String Texture :=
  let r1 := c.get_page page_number
  match r1.2 with
  | some page => (r1.1, Except.ok page)
  | none =>
    let r2 := r1.1.cache_page page_number 100
    let r3 := r2.1.get_page page_number
    match r3.2 with
    | some page => (r3.1, Except.ok page)
    | none => (r3.1, Except.error "Failed caching and retrieving page")

/-- A sequence of `cache_page` calls, applied in order. -/
def runCachePages (c : PageCache) (cmds : List (Nat × Int)) : PageCache :=
  cmds.foldl (fun c cmd => (c.cache_page cmd.1 cmd.2).1) c

/-! ## The synchronous command channel -/

/-- Rust `RetrievePagesCommand` (`cache.rs`). -/
inductive RetrievePagesCommand where
  | GetCurrentTwoPages (page_left_number : Nat)
  | GetCurrentPage (page_number : Nat)
deriving DecidableEq, Repr

/-- Rust `CachePageCommand` (`cache.rs`). -/
structure CachePageCommand where
  page : Nat
  height : Int
deriving DecidableEq, Repr

/-- Rust `CacheCommand` (`cache.rs`). -/
inductive CacheCommand where
  | Cache (command : CachePageCommand)
  | Retrieve (command : RetrievePagesCommand)
deriving DecidableEq, Repr

/-- Rust `SyncCacheCommandChannel`: `retrieve_commands` is a `Vec` (a stack,
push and pop at the back, modelled with the back at the end of the
list); `cache_commands` is a `VecDeque` (modelled with its front at the
head of the list). -/
structure SyncCacheCommandChannel where
  retrieve_commands : List RetrievePagesCommand
  cache_commands : List CachePageCommand
deriving DecidableEq, Repr

/-- Rust `SyncCacheCommandChannel::open` creates the shared channel state
with both collections empty (the sender/receiver handles share it). -/
def SyncCacheCommandChannel.opened : SyncCacheCommandChannel :=
  { retrieve_commands := [], cache_commands := [] }

/-- Rust `SyncCacheCommandSender::send_retrieve_command`: `Vec::push` onto
the back of `retrieve_commands`. -/
def SyncCacheCommandChannel.send_retrieve_command
    (ch : SyncCacheCommandChannel) (command : RetrievePagesCommand) :
    SyncCacheCommandChannel :=
  { ch with retrieve_commands := ch.retrieve_commands ++ [command] }

/-- Rust `SyncCacheCommandSender::send_cache_commands`: for each page in
order, push a height-10 placeholder job to the front of `cache_commands`
and the full-height job to its back. -/
def SyncCacheCommandChannel.send_cache_commands
    (ch : SyncCacheCommandChannel) (pages : List Nat) (height : Int) :
    SyncCacheCommandChannel :=
  pages.foldl
    (fun ch page =>
      { ch with
          cache_commands :=
            { page := page, height := (10 : Int) } ::
              ch.cache_commands ++ [{ page := page, height := height }] })
    ch

/-- Rust `SyncCacheCommandReceiver::receive_most_important_command`:
`Vec::pop` the back of `retrieve_commands` if non-empty, else
`VecDeque::pop_front` of `cache_commands`, else nothing. -/
def SyncCacheCommandChannel.receive_most_important_command
    (ch : SyncCacheCommandChannel) :
    SyncCacheCommandChannel × Option CacheCommand :=
  match ch.retrieve_commands.getLast? with
  | some command =>
    ({ ch with retrieve_commands := ch.retrieve_commands.dropLast },
     some (CacheCommand.Retrieve command))
  | none =>
    match ch.cache_commands with
    | command :: rest =>
      ({ ch with cache_commands := rest }, some (CacheCommand.Cache command))
    | [] => (ch, none)

/-! ## Helper lemmas about the map model -/

theorem btGet_insert_self (k : Nat) (v : Texture) (m : PagesMap) :
    btGet k (btInsert k v m).1 = some v := by
  induction m with
  | nil => simp [btInsert, btGet]
  | cons e rest ih =>
    obtain ⟨k', v'⟩ := e
    by_cases h1 : k < k'
    · simp [btInsert, h1, btGet]
    · by_cases h2 : k = k'
      · simp [btInsert, h1, h2, btGet]
      · simp [btInsert, h1, h2, btGet, ih]

theorem btGet_insert_ne (k j : Nat) (v : Texture) (m : PagesMap) (hne : k ≠ j) :
    btGet k (btInsert j v m).1 = btGet k m := by
  induction m with
  | nil => simp [btInsert, btGet, hne]
  | cons e rest ih =>
    obtain ⟨k', v'⟩ := e
    by_cases h1 : j < k'
    · simp [btInsert, h1, btGet, hne]
    · by_cases h2 : j = k'
      · subst h2
        simp [btInsert, h1, btGet, hne]
      · simp [btInsert, h1, h2, btGet, ih]

theorem btGet_some_mem (k : Nat) (t : Texture) (m : PagesMap)
    (h : btGet k m = some t) : (k, t) ∈ m := by
  induction m with
  | nil => simp [btGet] at h
  | cons e rest ih =>
    obtain ⟨k', v'⟩ := e
    by_cases h1 : k = k'
    · subst h1
      simp [btGet] at h
      simp [h]
    · simp [btGet, h1] at h
      exact List.mem_cons_of_mem _ (ih h)

theorem btInsert_snd_of_get_none (k : Nat) (v : Texture) (m : PagesMap)
    (h : btGet k m = none) : (btInsert k v m).2 = none := by
  induction m with
  | nil => simp [btInsert]
  | cons e rest ih =>
    obtain ⟨k', v'⟩ := e
    by_cases h1 : k = k'
    · simp [btGet, h1] at h
    · simp [btGet, h1] at h
      by_cases h2 : k < k'
      · simp [btInsert, h2]
      · simp [btInsert, h2, h1, ih h]

theorem btInsert_length_le (k : Nat) (v : Texture) (m : PagesMap) :
    (btInsert k v m).1.length ≤ m.length + 1 := by
  induction m with
  | nil => simp [btInsert]
  | cons e rest ih =>
    obtain ⟨k', v'⟩ := e
    by_cases h1 : k < k'
    · simp [btInsert, h1]
    · by_cases h2 : k = k'
      · simp [btInsert, h1, h2]
      · simp [btInsert, h1, h2]
        omega

theorem btInsert_length_of_get_none (k : Nat) (v : Texture) (m : PagesMap)
    (h : btGet k m = none) : (btInsert k v m).1.length = m.length + 1 := by
  induction m with
  | nil => simp [btInsert]
  | cons e rest ih =>
    obtain ⟨k', v'⟩ := e
    by_cases h1 : k = k'
    · simp [btGet, h1] at h
    · simp [btGet, h1] at h
      by_cases h2 : k < k'
      · simp [btInsert, h2]
      · simp [btInsert, h2, h1, ih h]

theorem btInsert_cons_of_lt (k : Nat) (v : Texture) (m : PagesMap)
    (h : ∀ e ∈ m, k < e.1) : btInsert k v m = ((k, v) :: m, none) := by
  cases m with
  | nil => simp [btInsert]
  | cons e rest =>
    obtain ⟨k', v'⟩ := e
    have : k < k' := h (k', v') (List.mem_cons_self _ _)
    simp [btInsert, this]

theorem btInsert_append_of_gt (k : Nat) (v : Texture) (m : PagesMap)
    (h : ∀ e ∈ m, e.1 < k) : btInsert k v m = (m ++ [(k, v)], none) := by
  induction m with
  | nil => simp [btInsert]
  | cons e rest ih =>
    obtain ⟨k', v'⟩ := e
    have hk' : k' < k := h (k', v') (List.mem_cons_self _ _)
    have h1 : ¬ k < k' := by omega
    have h2 : k ≠ k' := by omega
    have := ih (fun e he => h e (List.mem_cons_of_mem _ he))
    simp [btInsert, h1, h2, this]

theorem btInsert_split (k : Nat) (v : Texture) (m : PagesMap)
    (hs : SortedMap m) (h : btGet k m = none) :
    ∃ A B, m = A ++ B ∧ (btInsert k v m).1 = A ++ (k, v) :: B ∧
      (∀ a ∈ A, a.1 < k) ∧ (∀ b ∈ B, k < b.1) := by
  induction m with
  | nil => exact ⟨[], [], by simp [btInsert]⟩
  | cons e rest ih =>
    obtain ⟨k', v'⟩ := e
    have hs' : SortedMap rest := (List.pairwise_cons.mp hs).2
    have hall : ∀ x ∈ rest, k' < x.1 := by
      intro x hx
      exact (List.pairwise_cons.mp hs).1 x hx
    by_cases h1 : k = k'
    · simp [btGet, h1] at h
    · simp [btGet, h1] at h
      by_cases h2 : k < k'
      · refine ⟨[], (k', v') :: rest, by simp, by simp [btInsert, h2], by simp, ?_⟩
        intro b hb
        rcases List.mem_cons.mp hb with hb | hb
        · subst hb; exact h2
        · exact lt_trans h2 (hall b hb)
      · obtain ⟨A, B, hm, hins, hA, hB⟩ := ih hs' h
        refine ⟨(k', v') :: A, B, by simp [hm], ?_, ?_, hB⟩
        · simp [btInsert, h2, h1, hins]
        · intro a ha
          rcases List.mem_cons.mp ha with ha | ha
          · subst ha; omega
          · exact hA a ha

theorem btInsert_mem (k : Nat) (v : Texture) (m : PagesMap) (x : Nat × Texture)
    (hx : x ∈ (btInsert k v m).1) : x = (k, v) ∨ x ∈ m := by
  induction m with
  | nil => simp [btInsert] at hx; simp [hx]
  | cons e rest ih =>
    obtain ⟨k', v'⟩ := e
    by_cases h1 : k < k'
    · simp [btInsert, h1] at hx
      rcases hx with hx | hx | hx
      · left; simp [hx]
      · right; simp [hx]
      · right; simp [hx]
    · by_cases h2 : k = k'
      · simp [btInsert, h1, h2] at hx
        rcases hx with hx | hx
        · left; simp [hx, h2]
        · right; simp [hx]
      · simp [btInsert, h1, h2] at hx
        rcases hx with hx | hx
        · right; simp [hx]
        · rcases ih hx with hx' | hx'
          · left; exact hx'
          · right; exact List.mem_cons_of_mem _ hx'

theorem btInsert_sorted (k : Nat) (v : Texture) (m : PagesMap)
    (hs : SortedMap m) : SortedMap (btInsert k v m).1 := by
  induction m with
  | nil => simp [btInsert, SortedMap]
  | cons e rest ih =>
    obtain ⟨k', v'⟩ := e
    have hs' : SortedMap rest := (List.pairwise_cons.mp hs).2
    have hall : ∀ x ∈ rest, k' < x.1 := fun x hx => (List.pairwise_cons.mp hs).1 x hx
    by_cases h1 : k < k'
    · simp only [btInsert, if_pos h1]
      refine List.pairwise_cons.mpr ⟨?_, hs⟩
      intro x hx
      rcases List.mem_cons.mp hx with hx | hx
      · subst hx; exact h1
      · exact lt_trans h1 (hall x hx)
    · by_cases h2 : k = k'
      · simp only [btInsert, if_neg h1, if_pos h2]
        refine List.pairwise_cons.mpr ⟨?_, hs'⟩
        intro x hx
        subst h2
        exact hall x hx
      · simp only [btInsert, if_neg h1, if_neg h2]
        refine List.pairwise_cons.mpr ⟨?_, ih hs'⟩
        intro x hx
        rcases btInsert_mem k v rest x hx with hx' | hx'
        · subst hx'; omega
        · exact hall x hx'

theorem btGet_append_mid (k : Nat) (t : Texture) (X Y : PagesMap)
    (hX : ∀ x ∈ X, x.1 ≠ k) : btGet k (X ++ (k, t) :: Y) = some t := by
  induction X with
  | nil => simp [btGet]
  | cons e rest ih =>
    obtain ⟨k', v'⟩ := e
    have : k ≠ k' := fun h => (hX (k', v') (List.mem_cons_self _ _)) h.symm
    simp only [List.cons_append, btGet, if_neg this]
    exact ih (fun x hx => hX x (List.mem_cons_of_mem _ hx))

theorem btInsert_snd_of_get_some (k : Nat) (v t : Texture) (m : PagesMap)
    (hs : SortedMap m) (h : btGet k m = some t) :
    (btInsert k v m).2 = some t := by
  induction m with
  | nil => simp [btGet] at h
  | cons e rest ih =>
    obtain ⟨k', v'⟩ := e
    have hs' : SortedMap rest := (List.pairwise_cons.mp hs).2
    have hall : ∀ x ∈ rest, k' < x.1 :=
      fun x hx => (List.pairwise_cons.mp hs).1 x hx
    by_cases h2 : k = k'
    · simp only [btGet, if_pos h2] at h
      have h1 : ¬ k < k' := by omega
      simp [btInsert, h1, h2, h]
    · simp only [btGet, if_neg h2] at h
      by_cases h1 : k < k'
      · exfalso
        have := hall (k, t) (btGet_some_mem k t rest h)
        omega
      · simp [btInsert, h1, h2, ih hs' h]

theorem btInsert_length_of_get_some (k : Nat) (v t : Texture) (m : PagesMap)
    (hs : SortedMap m) (h : btGet k m = some t) :
    (btInsert k v m).1.length = m.length := by
  induction m with
  | nil => simp [btGet] at h
  | cons e rest ih =>
    obtain ⟨k', v'⟩ := e
    have hs' : SortedMap rest := (List.pairwise_cons.mp hs).2
    have hall : ∀ x ∈ rest, k' < x.1 :=
      fun x hx => (List.pairwise_cons.mp hs).1 x hx
    by_cases h2 : k = k'
    · have h1 : ¬ k < k' := by omega
      simp [btInsert, h1, h2]
    · simp only [btGet, if_neg h2] at h
      by_cases h1 : k < k'
      · exfalso
        have := hall (k, t) (btGet_some_mem k t rest h)
        omega
      · simp [btInsert, h1, h2, ih hs' h]

/-! ## Frame and length lemmas about the cache operations -/

theorem remove_most_distant_page_frame (c : PageCache) :
    c.remove_most_distant_page.1.document = c.document ∧
    c.remove_most_distant_page.1.max_num_stored_pages = c.max_num_stored_pages ∧
    c.remove_most_distant_page.1.last_requested_page_number
      = c.last_requested_page_number := by
  rcases hf : btPopFirst c.pages with _ | ⟨⟨mn, mp⟩, rest1⟩
  · simp [PageCache.remove_most_distant_page, hf]
  · rcases hl : btPopLast rest1 with _ | ⟨⟨xn, xp⟩, rest2⟩
    · simp [PageCache.remove_most_distant_page, hf, hl]
    · by_cases hc : Nat.dist c.last_requested_page_number mn >
          Nat.dist c.last_requested_page_number xn
      · simp [PageCache.remove_most_distant_page, hf, hl, hc]
      · simp [PageCache.remove_most_distant_page, hf, hl, hc]

theorem remove_most_distant_page_length (c : PageCache)
    (h2 : 2 ≤ c.pages.length) :
    c.remove_most_distant_page.1.pages.length + 1 ≤ c.pages.length := by
  rcases hp : c.pages with _ | ⟨e, rest⟩
  · rw [hp] at h2; simp at h2
  · obtain ⟨en, ev⟩ := e
    have hr : rest ≠ [] := by
      rw [hp] at h2
      simp only [List.length_cons] at h2
      intro hrest
      subst hrest
      simp at h2
    have hrl : rest.getLast? = some (rest.getLast hr) :=
      List.getLast?_eq_getLast rest hr
    rcases hgl : rest.getLast hr with ⟨gn, gv⟩
    have hlen2 : rest.dropLast.length = rest.length - 1 := List.length_dropLast rest
    have hle := btInsert_length_le gn gv rest.dropLast
    have hle' := btInsert_length_le en ev rest.dropLast
    by_cases hc : Nat.dist c.last_requested_page_number en >
        Nat.dist c.last_requested_page_number gn
    · simp only [PageCache.remove_most_distant_page, hp, btPopFirst, btPopLast,
        hrl, hgl, if_pos hc, List.length_cons]
      have : rest.length ≥ 1 := by
        cases rest
        · exact absurd rfl hr
        · simp
      omega
    · simp only [PageCache.remove_most_distant_page, hp, btPopFirst, btPopLast,
        hrl, hgl, if_neg hc, List.length_cons]
      have : rest.length ≥ 1 := by
        cases rest
        · exact absurd rfl hr
        · simp
      omega

theorem cachePageBody_bound_step (c : PageCache) (p : Nat) (h : Int)
    (hlen : c.pages.length ≤ max 2 c.max_num_stored_pages) :
    (c.cachePageBody p h).1.pages.length ≤ max 2 c.max_num_stored_pages ∧
    (c.cachePageBody p h).1.max_num_stored_pages = c.max_num_stored_pages := by
  rcases hd : c.document.page (usizeToI32 p) with _ | pg
  · simp only [PageCache.cachePageBody, hd]
    exact ⟨hlen, by trivial⟩
  · simp only [PageCache.cachePageBody, hd]
    have h2m : 2 ≤ max 2 c.max_num_stored_pages := le_max_left _ _
    have hMm : c.max_num_stored_pages ≤ max 2 c.max_num_stored_pages :=
      le_max_right _ _
    have hle := btInsert_length_le p (draw_pages_to_texture [pg] h) c.pages
    by_cases hc :
        (btInsert p (draw_pages_to_texture [pg] h) c.pages).1.length >
            c.max_num_stored_pages ∧
          (btInsert p (draw_pages_to_texture [pg] h) c.pages).1.length > 2
    · simp only [if_pos hc]
      set c1 : PageCache :=
        { c with pages := (btInsert p (draw_pages_to_texture [pg] h) c.pages).1 }
        with hc1
      have hlen1 : 2 ≤ c1.pages.length := by
        simp only [hc1]
        omega
      have hrem := remove_most_distant_page_length c1 hlen1
      have hframe := remove_most_distant_page_frame c1
      refine ⟨?_, ?_⟩
      · have hc1len : c1.pages.length ≤ c.pages.length + 1 := by
          simp only [hc1]
          exact hle
        omega
      · rw [hframe.2.1]
    · simp only [if_neg hc]
      refine ⟨?_, by trivial⟩
      simp only [not_and_or, not_lt] at hc
      rcases hc with hc | hc
      · omega
      · omega

theorem cache_page_bound_step (c : PageCache) (p : Nat) (h : Int)
    (hlen : c.pages.length ≤ max 2 c.max_num_stored_pages) :
    (c.cache_page p h).1.pages.length ≤ max 2 c.max_num_stored_pages ∧
    (c.cache_page p h).1.max_num_stored_pages = c.max_num_stored_pages := by
  rcases hg : btGet p c.pages with _ | t
  · simp only [PageCache.cache_page, hg]
    exact cachePageBody_bound_step c p h hlen
  · by_cases hht : h ≤ t.height
    · simp only [PageCache.cache_page, hg, if_pos hht]
      exact ⟨hlen, by trivial⟩
    · simp only [PageCache.cache_page, hg, if_neg hht]
      exact cachePageBody_bound_step c p h hlen

/-- Unfolding of `cachePageBody` when the document provides the page. -/
theorem cachePageBody_eq (c : PageCache) (p : Nat) (h : Int) (pg : PopplerPage)
    (hdoc : c.document.page (usizeToI32 p) = some pg) :
    c.cachePageBody p h =
      ((if (btInsert p (draw_pages_to_texture [pg] h) c.pages).1.length >
            c.max_num_stored_pages ∧
          (btInsert p (draw_pages_to_texture [pg] h) c.pages).1.length > 2 then
          ({ c with
              pages := (btInsert p (draw_pages_to_texture [pg] h) c.pages).1 } :
            PageCache).remove_most_distant_page.1
        else
          { c with
              pages := (btInsert p (draw_pages_to_texture [pg] h) c.pages).1 }),
       (if (btInsert p (draw_pages_to_texture [pg] h) c.pages).2.isSome then
          some (CacheResponse.PageResolutionUpgraded p
            (draw_pages_to_texture [pg] h))
        else none),
       [AdapterCall.documentPage (usizeToI32 p),
        AdapterCall.renderPage pg.index h]) := by
  simp only [PageCache.cachePageBody, hdoc]

/-- When the anchor `last_requested_page_number` equals the page being
inserted, the freshly inserted entry survives the eviction (if any) run
by `cachePageBody`: the anchor is at distance 0 from itself, so it is
never the dropped extreme. -/
theorem cachePageBody_keeps_anchor (c : PageCache) (p : Nat) (h : Int)
    (pg : PopplerPage) (hs : SortedMap c.pages)
    (hmiss : btGet p c.pages = none)
    (hdoc : c.document.page (usizeToI32 p) = some pg)
    (hlast : c.last_requested_page_number = p) :
    btGet p (c.cachePageBody p h).1.pages =
      some (draw_pages_to_texture [pg] h) := by
  obtain ⟨A, B, hm, hins, hA, hB⟩ :=
    btInsert_split p (draw_pages_to_texture [pg] h) c.pages hs hmiss
  rw [cachePageBody_eq c p h pg hdoc]
  by_cases hc : (btInsert p (draw_pages_to_texture [pg] h) c.pages).1.length >
        c.max_num_stored_pages ∧
      (btInsert p (draw_pages_to_texture [pg] h) c.pages).1.length > 2
  · simp only [if_pos hc]
    have hlen3 : (btInsert p (draw_pages_to_texture [pg] h) c.pages).1.length > 2 :=
      hc.2
    rcases hAcase : A with _ | ⟨a, A1⟩
    · -- the inserted page is the new minimum
      subst hAcase
      simp only [List.nil_append] at hins
      have hBne : B ≠ [] := by
        intro hB0
        rw [hins, hB0] at hlen3
        simp at hlen3
      have hgl : B.getLast? = some (B.getLast hBne) :=
        List.getLast?_eq_getLast B hBne
      rcases hglpair : B.getLast hBne with ⟨gn, gv⟩
      have hgn : p < gn := by
        have := hB (B.getLast hBne) (List.getLast_mem hBne)
        rw [hglpair] at this
        exact this
      have hcond : ¬ (Nat.dist p p > Nat.dist p gn) := by
        simp [Nat.dist_self]
      simp only [PageCache.remove_most_distant_page, hins, btPopFirst,
        btPopLast, hgl, hglpair, hlast, if_neg hcond]
      exact btGet_insert_self p (draw_pages_to_texture [pg] h) B.dropLast
    · -- the map had a smaller entry `a`
      have hane : a.1 ≠ p := by
        have := hA a (by rw [hAcase]; exact List.mem_cons_self _ _)
        omega
      obtain ⟨an, av⟩ := a
      rcases hBcase : B with _ | ⟨b, B1⟩
      · -- the inserted page is the new maximum
        subst hBcase hAcase
        have hrest1 : (btInsert p (draw_pages_to_texture [pg] h) c.pages).1
            = (an, av) :: (A1 ++ [(p, draw_pages_to_texture [pg] h)]) := by
          rw [hins]; simp
        have hgl2 : (A1 ++ [(p, draw_pages_to_texture [pg] h)]).getLast?
            = some (p, draw_pages_to_texture [pg] h) := List.getLast?_concat _
        have hdl2 : (A1 ++ [(p, draw_pages_to_texture [pg] h)]).dropLast = A1 :=
          List.dropLast_concat
        have hcond : Nat.dist p an > Nat.dist p p := by
          have hne2 : p ≠ an := fun hpe => hane (hpe.symm)
          have := Nat.dist_pos_of_ne hne2
          simpa [Nat.dist_self] using this
        simp only [PageCache.remove_most_distant_page, hrest1, btPopFirst,
          btPopLast, hgl2, hdl2, hlast, if_pos hcond]
        exact btGet_insert_self p (draw_pages_to_texture [pg] h) A1
      · -- the inserted page is interior: both popped extremes differ from it
        subst hBcase hAcase
        have hrest1 : (btInsert p (draw_pages_to_texture [pg] h) c.pages).1
            = (an, av) ::
              ((A1 ++ [(p, draw_pages_to_texture [pg] h)]) ++ b :: B1) := by
          rw [hins]; simp
        have hBne : (b :: B1) ≠ [] := List.cons_ne_nil _ _
        have hgl2 : ((A1 ++ [(p, draw_pages_to_texture [pg] h)]) ++ b :: B1).getLast?
            = some ((b :: B1).getLast hBne) := by
          rw [List.getLast?_append_of_ne_nil _ hBne]
          exact List.getLast?_eq_getLast _ hBne
        rcases hglpair : (b :: B1).getLast hBne with ⟨gn, gv⟩
        have hgn : p < gn := by
          have := hB ((b :: B1).getLast hBne) (List.getLast_mem hBne)
          rw [hglpair] at this
          exact this
        have hdl2 : ((A1 ++ [(p, draw_pages_to_texture [pg] h)]) ++ b :: B1).dropLast
            = (A1 ++ [(p, draw_pages_to_texture [pg] h)]) ++ (b :: B1).dropLast :=
          List.dropLast_append_cons
        have hmid : btGet p
            ((A1 ++ [(p, draw_pages_to_texture [pg] h)]) ++ (b :: B1).dropLast)
            = some (draw_pages_to_texture [pg] h) := by
          rw [List.append_assoc, List.singleton_append]
          exact btGet_append_mid p _ A1 _
            (fun x hx => by have := hA x (List.mem_cons_of_mem _ hx); omega)
        by_cases hcond : Nat.dist p an > Nat.dist p gn
        · simp only [PageCache.remove_most_distant_page, hrest1, btPopFirst,
            btPopLast, hgl2, hglpair, hlast, if_pos hcond]
          rw [btGet_insert_ne p gn gv _ (by omega), hdl2]
          exact hmid
        · simp only [PageCache.remove_most_distant_page, hrest1, btPopFirst,
            btPopLast, hgl2, hglpair, hlast, if_neg hcond]
          rw [btGet_insert_ne p an av _ (by omega), hdl2]
          exact hmid
  · simp only [if_neg hc]
    exact btGet_insert_self p (draw_pages_to_texture [pg] h) c.pages

/-! ## Claim theorems -/

/-- **C1**: every sequence of `cache_page` calls on a cache constructed
with `max_num_stored_pages = M` leaves at most `max 2 M` entries in the
pages map; since every prefix of a sequence is itself a sequence, the
bound holds immediately after each call. -/
theorem cache_page_size_bound (doc : Document) (M : Nat)
    (cmds : List (Nat × Int)) :
    (runCachePages (PageCache.new doc M) cmds).pages.length ≤ max 2 M := by
  suffices h : ∀ (cmds : List (Nat × Int)) (c : PageCache),
      c.pages.length ≤ max 2 c.max_num_stored_pages →
      (runCachePages c cmds).pages.length ≤
          max 2 c.max_num_stored_pages ∧
        (runCachePages c cmds).max_num_stored_pages
          = c.max_num_stored_pages by
    have h0 : (PageCache.new doc M).pages.length ≤
        max 2 (PageCache.new doc M).max_num_stored_pages := by
      simp [PageCache.new]
    simpa [PageCache.new] using (h cmds (PageCache.new doc M) h0).1
  intro cmds
  induction cmds with
  | nil =>
    intro c hc
    exact ⟨hc, rfl⟩
  | cons cmd rest ih =>
    intro c hc
    have step := cache_page_bound_step c cmd.1 cmd.2 hc
    have hrec := ih (c.cache_page cmd.1 cmd.2).1 (by rw [step.2]; exact step.1)
    constructor
    · simpa only [runCachePages, List.foldl_cons, step.2] using hrec.1
    · simpa only [runCachePages, List.foldl_cons, step.2] using hrec.2

/-- **C2**: on a sorted pages map with at least two entries (head `e`,
last `hi`), `remove_most_distant_page` drops exactly the farther of the
two extreme keys and keeps everything else — the result is the tail
(dropping the minimum) or the map without its last entry (dropping the
maximum) — and the retained extreme is at distance from
`last_requested_page_number` no greater than the dropped one. -/
theorem remove_most_distant_page_keeps_closer_extreme (c : PageCache)
    (hs : SortedMap c.pages) (e : Nat × Texture) (rest : PagesMap)
    (hp : c.pages = e :: rest) (hne : rest ≠ []) :
    (c.remove_most_distant_page =
      if Nat.dist c.last_requested_page_number e.1 >
          Nat.dist c.last_requested_page_number (rest.getLast hne).1 then
        ({ c with pages := rest }, Except.ok ())
      else
        ({ c with pages := e :: rest.dropLast }, Except.ok ())) ∧
    Nat.dist c.last_requested_page_number
        (if Nat.dist c.last_requested_page_number e.1 >
            Nat.dist c.last_requested_page_number (rest.getLast hne).1
         then (rest.getLast hne).1 else e.1) ≤
      Nat.dist c.last_requested_page_number
        (if Nat.dist c.last_requested_page_number e.1 >
            Nat.dist c.last_requested_page_number (rest.getLast hne).1
         then e.1 else (rest.getLast hne).1) := by
  obtain ⟨en, ev⟩ := e
  have hrl : rest.getLast? = some (rest.getLast hne) :=
    List.getLast?_eq_getLast rest hne
  have hrest_sorted : SortedMap rest := by
    rw [hp] at hs
    exact (List.pairwise_cons.mp hs).2
  have hhead_lt : ∀ x ∈ rest, en < x.1 := by
    rw [hp] at hs
    exact fun x hx => (List.pairwise_cons.mp hs).1 x hx
  have hdrop_lt : ∀ x ∈ rest.dropLast, x.1 < (rest.getLast hne).1 := by
    intro x hx
    have hsplit : rest.dropLast ++ [rest.getLast hne] = rest :=
      List.dropLast_append_getLast hne
    rw [← hsplit] at hrest_sorted
    exact (List.pairwise_append.mp hrest_sorted).2.2 x hx _ (by simp)
  rcases hgl : rest.getLast hne with ⟨gn, gv⟩
  have hins_max : btInsert gn gv rest.dropLast = (rest.dropLast ++ [(gn, gv)], none) := by
    apply btInsert_append_of_gt
    intro x hx
    have := hdrop_lt x hx
    rw [hgl] at this
    exact this
  have hins_min : btInsert en ev rest.dropLast = ((en, ev) :: rest.dropLast, none) := by
    apply btInsert_cons_of_lt
    intro x hx
    exact hhead_lt x (List.dropLast_subset rest hx)
  have hback : rest.dropLast ++ [(gn, gv)] = rest := by
    rw [← hgl]
    exact List.dropLast_append_getLast hne
  constructor
  · by_cases hc : Nat.dist c.last_requested_page_number en >
        Nat.dist c.last_requested_page_number gn
    · simp only [PageCache.remove_most_distant_page, hp, btPopFirst, btPopLast,
        hrl, hgl, if_pos hc, hins_max, hback]
    · simp only [PageCache.remove_most_distant_page, hp, btPopFirst, btPopLast,
        hrl, hgl, if_neg hc, hins_min]
  · by_cases hc : Nat.dist c.last_requested_page_number en >
        Nat.dist c.last_requested_page_number gn
    · simp only [hgl, if_pos hc]
      omega
    · simp only [hgl, if_neg hc]
      simp only [not_lt] at hc
      exact hc

/-- Witness for C2: pages `{1, 5, 9}` with anchor 2 drop the far
extreme 9 and keep 1, the closer one. -/
theorem remove_most_distant_page_keeps_closer_extreme_witness :
    ((PageCache.mk ⟨10⟩ 5 [(1, ⟨1, 10⟩), (5, ⟨5, 10⟩), (9, ⟨9, 10⟩)] 2).remove_most_distant_page
        = ({ document := ⟨10⟩, max_num_stored_pages := 5,
             pages := [(1, ⟨1, 10⟩), (5, ⟨5, 10⟩)],
             last_requested_page_number := 2 }, Except.ok ())) ∧
    (1 : Nat) ≤ 7 := by
  have h := remove_most_distant_page_keeps_closer_extreme
      (PageCache.mk ⟨10⟩ 5 [(1, ⟨1, 10⟩), (5, ⟨5, 10⟩), (9, ⟨9, 10⟩)] 2)
      (by decide) (1, ⟨1, 10⟩) [(5, ⟨5, 10⟩), (9, ⟨9, 10⟩)] rfl (by decide)
  exact ⟨h.1, h.2⟩

/-- **C3** (counterexample): on an otherwise empty channel, after
`send_retrieve_command(A)` then `send_retrieve_command(B)`, one
`receive_most_important_command()` returns `B`, but a second receive
returns `Retrieve A` — not nothing: the buried request `A` is serviced
after all, refuting the claim. -/
theorem retrieve_stack_second_receive_counterexample :
    ((SyncCacheCommandChannel.opened.send_retrieve_command
          (RetrievePagesCommand.GetCurrentPage 0)).send_retrieve_command
          (RetrievePagesCommand.GetCurrentPage 1)).receive_most_important_command.2
        = some (CacheCommand.Retrieve (RetrievePagesCommand.GetCurrentPage 1)) ∧
    ((SyncCacheCommandChannel.opened.send_retrieve_command
          (RetrievePagesCommand.GetCurrentPage 0)).send_retrieve_command
          (RetrievePagesCommand.GetCurrentPage 1)).receive_most_important_command.1.receive_most_important_command.2
        = some (CacheCommand.Retrieve (RetrievePagesCommand.GetCurrentPage 0)) := by
  decide

/-- **C3** (amended): pending retrieve requests are serviced in LIFO
order: after `send_retrieve_command(A)` then `send_retrieve_command(B)`
on an otherwise empty channel, the first receive returns `B`, the
second returns `A` (the older request is serviced, not discarded), and
a third returns nothing. -/
theorem retrieve_stack_lifo_order (A B : RetrievePagesCommand) :
    ((SyncCacheCommandChannel.opened.send_retrieve_command A).send_retrieve_command
        B).receive_most_important_command.2 = some (CacheCommand.Retrieve B) ∧
    ((SyncCacheCommandChannel.opened.send_retrieve_command A).send_retrieve_command
        B).receive_most_important_command.1.receive_most_important_command.2
      = some (CacheCommand.Retrieve A) ∧
    ((SyncCacheCommandChannel.opened.send_retrieve_command A).send_retrieve_command
        B).receive_most_important_command.1.receive_most_important_command.1.receive_most_important_command.2
      = none := by
  exact ⟨rfl, rfl, rfl⟩

/-- **C4**: `send_cache_commands([5, 6], height=200)` on an otherwise
empty channel, drained by `receive_most_important_command()`, yields
exactly: placeholder (height-10) job for page 6, placeholder job for
page 5, full job (5, 200), full job (6, 200), then nothing. -/
theorem send_cache_commands_batch_order :
    (SyncCacheCommandChannel.opened.send_cache_commands [5, 6] 200).receive_most_important_command.2
        = some (CacheCommand.Cache { page := 6, height := 10 }) ∧
    (SyncCacheCommandChannel.opened.send_cache_commands [5, 6]
          200).receive_most_important_command.1.receive_most_important_command.2
        = some (CacheCommand.Cache { page := 5, height := 10 }) ∧
    (SyncCacheCommandChannel.opened.send_cache_commands [5, 6]
          200).receive_most_important_command.1.receive_most_important_command.1.receive_most_important_command.2
        = some (CacheCommand.Cache { page := 5, height := 200 }) ∧
    (SyncCacheCommandChannel.opened.send_cache_commands [5, 6]
          200).receive_most_important_command.1.receive_most_important_command.1.receive_most_important_command.1.receive_most_important_command.2
        = some (CacheCommand.Cache { page := 6, height := 200 }) ∧
    (SyncCacheCommandChannel.opened.send_cache_commands [5, 6]
          200).receive_most_important_command.1.receive_most_important_command.1.receive_most_important_command.1.receive_most_important_command.1.receive_most_important_command.2
        = none := by
  decide

/-- **C8**: `receive_most_important_command` returns the last-pushed
retrieve command whenever `retrieve_commands` is non-empty, regardless
of the pending cache jobs; it returns the front cache job only when
`retrieve_commands` is empty; and it returns nothing only when both
collections are empty. -/
theorem receive_most_important_command_priority (ch : SyncCacheCommandChannel) :
    (∀ cmd, ch.retrieve_commands.getLast? = some cmd →
        ch.receive_most_important_command =
          ({ ch with retrieve_commands := ch.retrieve_commands.dropLast },
           some (CacheCommand.Retrieve cmd))) ∧
    (∀ j js, ch.retrieve_commands = [] → ch.cache_commands = j :: js →
        ch.receive_most_important_command =
          ({ ch with cache_commands := js }, some (CacheCommand.Cache j))) ∧
    (ch.retrieve_commands = [] → ch.cache_commands = [] →
        ch.receive_most_important_command = (ch, none)) := by
  refine ⟨?_, ?_, ?_⟩
  · intro cmd h
    simp [SyncCacheCommandChannel.receive_most_important_command, h]
  · intro j js h1 h2
    have hl : ch.retrieve_commands.getLast? = none := by simp [h1]
    simp [SyncCacheCommandChannel.receive_most_important_command, hl, h2]
  · intro h1 h2
    have hl : ch.retrieve_commands.getLast? = none := by simp [h1]
    simp [SyncCacheCommandChannel.receive_most_important_command, hl, h2]

/-- Witness for C8: a channel with one pending retrieve request and one
pending cache job hands out the retrieve request. -/
theorem receive_most_important_command_priority_witness :
    (SyncCacheCommandChannel.mk [RetrievePagesCommand.GetCurrentPage 4]
        [{ page := 1, height := 2 }]).receive_most_important_command =
      ({ retrieve_commands := [],
         cache_commands := [{ page := 1, height := 2 }] },
       some (CacheCommand.Retrieve (RetrievePagesCommand.GetCurrentPage 4))) :=
  (receive_most_important_command_priority _).1 _ rfl

/-- **C5** (counterexample): invoked on a cache holding exactly one
entry, `remove_most_distant_page` returns a failure but does change the
pages map: the lone entry is popped before the failing second pop and
is dropped, refuting "the pages map is unchanged by the call". -/
theorem remove_most_distant_page_singleton_counterexample :
    ((PageCache.mk ⟨10⟩ 5 [(3, ⟨3, 50⟩)] 0).remove_most_distant_page.2 =
        Except.error "The cache is empty, cannot remove last page") ∧
    (PageCache.mk ⟨10⟩ 5 [(3, ⟨3, 50⟩)] 0).remove_most_distant_page.1.pages ≠
      (PageCache.mk ⟨10⟩ 5 [(3, ⟨3, 50⟩)] 0).pages :=
  ⟨rfl, by decide⟩

/-- **C5** (amended): invoked while the pages map has fewer than 2
entries, `remove_most_distant_page` returns a failure and leaves the
pages map empty — unchanged when it was already empty, and with the
sole entry removed and dropped when it held exactly one entry. The
other fields of the cache are untouched. -/
theorem remove_most_distant_page_underfull (c : PageCache)
    (h : c.pages.length < 2) :
    (∃ msg, c.remove_most_distant_page.2 = Except.error msg) ∧
    c.remove_most_distant_page.1.pages = [] ∧
    c.remove_most_distant_page.1.document = c.document ∧
    c.remove_most_distant_page.1.max_num_stored_pages = c.max_num_stored_pages ∧
    c.remove_most_distant_page.1.last_requested_page_number
      = c.last_requested_page_number := by
  obtain ⟨doc, M, pages, last⟩ := c
  rcases pages with _ | ⟨e, rest⟩
  · simp [PageCache.remove_most_distant_page, btPopFirst]
  · rcases rest with _ | ⟨f, rest⟩
    · simp [PageCache.remove_most_distant_page, btPopFirst, btPopLast]
    · simp at h
      omega

/-- Witness for C5 (amended): a one-entry cache. -/
theorem remove_most_distant_page_underfull_witness :
    (∃ msg, (PageCache.mk ⟨10⟩ 5 [(3, ⟨3, 50⟩)] 0).remove_most_distant_page.2
        = Except.error msg) ∧
    (PageCache.mk ⟨10⟩ 5 [(3, ⟨3, 50⟩)] 0).remove_most_distant_page.1.pages = [] ∧
    (PageCache.mk ⟨10⟩ 5 [(3, ⟨3, 50⟩)] 0).remove_most_distant_page.1.document = ⟨10⟩ ∧
    (PageCache.mk ⟨10⟩ 5 [(3, ⟨3, 50⟩)] 0).remove_most_distant_page.1.max_num_stored_pages = 5 ∧
    (PageCache.mk ⟨10⟩ 5 [(3, ⟨3, 50⟩)] 0).remove_most_distant_page.1.last_requested_page_number = 0 :=
  remove_most_distant_page_underfull (PageCache.mk ⟨10⟩ 5 [(3, ⟨3, 50⟩)] 0)
    (by decide)

/-- **C6**: if page `p` is cached with a handle of height at least `h`,
`cache_page p h` returns no response, performs no adapter invocation,
and leaves the cache state unchanged; consequently the immediately
repeated call `cache_page p h` again renders nothing and emits no
response. -/
theorem cache_page_cached_at_height_noop (c : PageCache) (p : Nat) (h : Int)
    (t : Texture) (hget : btGet p c.pages = some t) (hht : h ≤ t.height) :
    c.cache_page p h = (c, none, []) ∧
    (c.cache_page p h).1.cache_page p h = (c, none, []) := by
  have h1 : c.cache_page p h = (c, none, []) := by
    simp [PageCache.cache_page, hget, hht]
  refine ⟨h1, ?_⟩
  rw [h1]
  exact h1

/-- Witness for C6: page 1 cached at height 40, re-requested at 40. -/
theorem cache_page_cached_at_height_noop_witness :
    (PageCache.mk ⟨5⟩ 3 [(1, ⟨1, 40⟩)] 0).cache_page 1 40
        = (PageCache.mk ⟨5⟩ 3 [(1, ⟨1, 40⟩)] 0, none, []) ∧
    ((PageCache.mk ⟨5⟩ 3 [(1, ⟨1, 40⟩)] 0).cache_page 1 40).1.cache_page 1 40
        = (PageCache.mk ⟨5⟩ 3 [(1, ⟨1, 40⟩)] 0, none, []) :=
  cache_page_cached_at_height_noop _ 1 40 ⟨1, 40⟩ rfl (by decide)

/-- **C9**: starting from an empty cache, `get_page_or_cache p` for a
page number the document adapter cannot provide returns a failure, and
the pages map is still empty afterward. -/
theorem get_page_or_cache_unavailable (c : PageCache) (p : Nat)
    (hempty : c.pages = []) (hdoc : c.document.page (usizeToI32 p) = none) :
    (c.get_page_or_cache p).2 =
      Except.error "Failed caching and retrieving page" ∧
    (c.get_page_or_cache p).1.pages = [] := by
  simp [PageCache.get_page_or_cache, PageCache.get_page, hempty, btGet,
        PageCache.cache_page, PageCache.cachePageBody, hdoc]

/-- Witness for C9: a 3-page document asked for page 3. -/
theorem get_page_or_cache_unavailable_witness :
    ((PageCache.new ⟨3⟩ 10).get_page_or_cache 3).2 =
        Except.error "Failed caching and retrieving page" ∧
    ((PageCache.new ⟨3⟩ 10).get_page_or_cache 3).1.pages = [] :=
  get_page_or_cache_unavailable _ 3 rfl (by decide)

/-- Unfolding of `cache_page` when the call reaches the insert (the
page is not cached at sufficient height, the document provides it) and
the eviction condition does not hold. -/
theorem cache_page_eq_insert (c : PageCache) (p : Nat) (h : Int)
    (pg : PopplerPage)
    (hnoop : ∀ t, btGet p c.pages = some t → ¬ h ≤ t.height)
    (hdoc : c.document.page (usizeToI32 p) = some pg)
    (hnc : ¬ ((btInsert p (draw_pages_to_texture [pg] h) c.pages).1.length >
          c.max_num_stored_pages ∧
        (btInsert p (draw_pages_to_texture [pg] h) c.pages).1.length > 2)) :
    c.cache_page p h =
      ({ c with pages := (btInsert p (draw_pages_to_texture [pg] h) c.pages).1 },
       (if (btInsert p (draw_pages_to_texture [pg] h) c.pages).2.isSome then
          some (CacheResponse.PageResolutionUpgraded p
            (draw_pages_to_texture [pg] h))
        else none),
       [AdapterCall.documentPage (usizeToI32 p),
        AdapterCall.renderPage pg.index h]) := by
  rcases hg : btGet p c.pages with _ | t
  · simp only [PageCache.cache_page, hg]
    rw [cachePageBody_eq c p h pg hdoc, if_neg hnc]
  · simp only [PageCache.cache_page, hg, if_neg (hnoop t hg)]
    rw [cachePageBody_eq c p h pg hdoc, if_neg hnc]

/-- **C7**: with page `p` provided by the document, not yet cached, and
room in the cache (so no eviction interferes), `cache_page p h1`
returns no notice (a first-time insert), and the immediately following
`cache_page p h2` with `h2 > h1` returns `PageResolutionUpgraded`
carrying `p` and the new handle — distinct from the first render — and
the cache entry for `p` is replaced by that new handle. -/
theorem cache_page_resolution_upgrade (c : PageCache) (p : Nat) (h1 h2 : Int)
    (pg : PopplerPage) (hs : SortedMap c.pages)
    (hdoc : c.document.page (usizeToI32 p) = some pg)
    (hmiss : btGet p c.pages = none)
    (hroom : c.pages.length + 1 ≤ max 2 c.max_num_stored_pages)
    (hlt : h1 < h2) :
    (c.cache_page p h1).2.1 = none ∧
    ((c.cache_page p h1).1.cache_page p h2).2.1 =
      some (CacheResponse.PageResolutionUpgraded p
        (draw_pages_to_texture [pg] h2)) ∧
    draw_pages_to_texture [pg] h2 ≠ draw_pages_to_texture [pg] h1 ∧
    btGet p ((c.cache_page p h1).1.cache_page p h2).1.pages =
      some (draw_pages_to_texture [pg] h2) := by
  have hM := max_choice 2 c.max_num_stored_pages
  have hins1snd := btInsert_snd_of_get_none p (draw_pages_to_texture [pg] h1)
    c.pages hmiss
  have hlen1 := btInsert_length_of_get_none p (draw_pages_to_texture [pg] h1)
    c.pages hmiss
  have hnc1 : ¬ ((btInsert p (draw_pages_to_texture [pg] h1) c.pages).1.length >
        c.max_num_stored_pages ∧
      (btInsert p (draw_pages_to_texture [pg] h1) c.pages).1.length > 2) := by
    rw [hlen1]
    rcases hM with hM | hM <;> rw [hM] at hroom <;> omega
  have e1 := cache_page_eq_insert c p h1 pg
    (fun t ht => by rw [hmiss] at ht; cases ht) hdoc hnc1
  rw [hins1snd] at e1
  simp only [Option.isSome_none, Bool.false_eq_true, if_false] at e1
  have hs1 : SortedMap (btInsert p (draw_pages_to_texture [pg] h1) c.pages).1 :=
    btInsert_sorted _ _ _ hs
  have hget1 : btGet p (btInsert p (draw_pages_to_texture [pg] h1) c.pages).1 =
      some (draw_pages_to_texture [pg] h1) := btGet_insert_self _ _ _
  have hins2snd := btInsert_snd_of_get_some p (draw_pages_to_texture [pg] h2)
    (draw_pages_to_texture [pg] h1) _ hs1 hget1
  have hlen2 := btInsert_length_of_get_some p (draw_pages_to_texture [pg] h2)
    (draw_pages_to_texture [pg] h1) _ hs1 hget1
  have hnc2 : ¬ ((btInsert p (draw_pages_to_texture [pg] h2)
          (btInsert p (draw_pages_to_texture [pg] h1) c.pages).1).1.length >
        c.max_num_stored_pages ∧
      (btInsert p (draw_pages_to_texture [pg] h2)
          (btInsert p (draw_pages_to_texture [pg] h1) c.pages).1).1.length > 2) := by
    rw [hlen2, hlen1]
    rcases hM with hM | hM <;> rw [hM] at hroom <;> omega
  have e2 := cache_page_eq_insert
    ({ c with pages := (btInsert p (draw_pages_to_texture [pg] h1) c.pages).1 })
    p h2 pg
    (fun t ht => by
      have ht' : t = draw_pages_to_texture [pg] h1 := by
        have : btGet p (btInsert p (draw_pages_to_texture [pg] h1) c.pages).1 =
            some t := ht
        rw [hget1] at this
        exact (Option.some_inj.mp this).symm
      subst ht'
      simp only [draw_pages_to_texture]
      omega)
    hdoc hnc2
  rw [hins2snd] at e2
  simp only [Option.isSome_some, if_true] at e2
  refine ⟨by rw [e1], ?_, ?_, ?_⟩
  · rw [e1]
    rw [show (({ c with
        pages := (btInsert p (draw_pages_to_texture [pg] h1) c.pages).1 },
        (none : Option CacheResponse),
        [AdapterCall.documentPage (usizeToI32 p),
         AdapterCall.renderPage pg.index h1]) :
        PageCache × Option CacheResponse × List AdapterCall).1 =
      { c with pages := (btInsert p (draw_pages_to_texture [pg] h1) c.pages).1 }
      from rfl]
    rw [e2]
  · simp only [draw_pages_to_texture, ne_eq, Texture.mk.injEq, not_and]
    intro _
    omega
  · rw [e1]
    rw [show (({ c with
        pages := (btInsert p (draw_pages_to_texture [pg] h1) c.pages).1 },
        (none : Option CacheResponse),
        [AdapterCall.documentPage (usizeToI32 p),
         AdapterCall.renderPage pg.index h1]) :
        PageCache × Option CacheResponse × List AdapterCall).1 =
      { c with pages := (btInsert p (draw_pages_to_texture [pg] h1) c.pages).1 }
      from rfl]
    rw [e2]
    exact btGet_insert_self _ _ _

/-- Witness for C7: an empty cache over a 5-page document, page 0
rendered at height 10 then upgraded at height 200. -/
theorem cache_page_resolution_upgrade_witness :
    ((PageCache.new ⟨5⟩ 10).cache_page 0 10).2.1 = none ∧
    (((PageCache.new ⟨5⟩ 10).cache_page 0 10).1.cache_page 0 200).2.1 =
      some (CacheResponse.PageResolutionUpgraded 0 ⟨0, 200⟩) ∧
    (⟨0, 200⟩ : Texture) ≠ ⟨0, 10⟩ ∧
    btGet 0 (((PageCache.new ⟨5⟩ 10).cache_page 0 10).1.cache_page 0 200).1.pages =
      some ⟨0, 200⟩ :=
  cache_page_resolution_upgrade (PageCache.new ⟨5⟩ 10) 0 10 200 ⟨0⟩
    (by decide) (by decide) rfl (by decide) (by decide)

/-- **C10**: `get_page` records the requested page number as
`last_requested_page_number` even on a lookup miss; consequently a
failing `get_page_or_cache p` leaves the pages map unchanged but moves
the eviction anchor `last_requested_page_number` to `p`. -/
theorem get_page_miss_moves_anchor :
    (∀ (c : PageCache) (p : Nat),
        (c.get_page p).1.last_requested_page_number = p) ∧
    (∀ (c : PageCache) (p : Nat), SortedMap c.pages →
        (c.get_page_or_cache p).2.isOk = false →
        (c.get_page_or_cache p).1.pages = c.pages ∧
        (c.get_page_or_cache p).1.last_requested_page_number = p) := by
  constructor
  · intro c p
    rfl
  · intro c p hs hfail
    rcases hg : btGet p c.pages with _ | t
    · rcases hd : c.document.page (usizeToI32 p) with _ | pg
      · have hres : c.get_page_or_cache p =
            ({ c with last_requested_page_number := p },
             Except.error "Failed caching and retrieving page") := by
          simp [PageCache.get_page_or_cache, PageCache.get_page, hg,
            PageCache.cache_page, PageCache.cachePageBody, hd]
        rw [hres]
        exact ⟨rfl, rfl⟩
      · exfalso
        have hkeep := cachePageBody_keeps_anchor
          ({ c with last_requested_page_number := p }) p 100 pg hs hg hd rfl
        have hok : (c.get_page_or_cache p).2 =
            Except.ok (draw_pages_to_texture [pg] 100) := by
          simp only [PageCache.get_page_or_cache, PageCache.get_page, hg,
            PageCache.cache_page]
          rw [hkeep]
        rw [hok] at hfail
        cases hfail
    · exfalso
      have hok : (c.get_page_or_cache p).2 = Except.ok t := by
        simp [PageCache.get_page_or_cache, PageCache.get_page, hg]
      rw [hok] at hfail
      cases hfail

/-- Witness for C10: a failing request for page 3 of a 3-page document
leaves the (empty) pages map unchanged and sets the anchor to 3. -/
theorem get_page_miss_moves_anchor_witness :
    ((PageCache.new ⟨3⟩ 10).get_page_or_cache 3).1.pages =
        (PageCache.new ⟨3⟩ 10).pages ∧
    ((PageCache.new ⟨3⟩ 10).get_page_or_cache 3).1.last_requested_page_number
        = 3 :=
  get_page_miss_moves_anchor.2 (PageCache.new ⟨3⟩ 10) 3 (by decide) (by rfl)

end MusicReader
